import Mathlib

/-!
Verification of the cluster-aware routing layer of `neobolt`
(`neobolt/impl/python/routing.py`).

The development shallowly embeds the Python source.  Dynamic Python
values appearing in routing records are modelled by the inductive
`PyVal`; Python exceptions are modelled by `PyError` and exception
propagation by `Except`.  Stateful methods of `RoutingConnectionPool`
are modelled as explicit state transformers on `PoolState` which return
the final state together with either a result or the raised error.
Network interactions (the direct connection pool and the routing
oracle) are abstracted by a deterministic `NetworkOracle`.
-/

/-- A resolved socket address: a `(host, port)` pair, structural equality
(mirrors `SocketAddress` values produced by `SocketAddress.parse`). -/
structure Address where
  host : String
  port : Nat
deriving DecidableEq, Repr

instance : Inhabited Address := ⟨⟨"", 0⟩⟩

/-- Dynamic Python values occurring in routing records. -/
inductive PyVal where
  | int (n : Int)
  | str (s : String)
  | list (xs : List PyVal)
  | dict (entries : List (String × PyVal))

/-- The Python exceptions relevant to the routing layer.  `keyError` and
`typeError` are the builtin exceptions caught by
`RoutingTable.parse_routing_info`; the remaining constructors model the
neobolt exception classes that the routing source raises. -/
inductive PyError where
  | keyError
  | typeError
  | routingProtocolError (msg : String)
  | serviceUnavailable (msg : String)
  | connectionExpired (msg : String)

/-- Modelled from the spec: access modes are the two symbols READ and
WRITE (`READ_ACCESS` / `WRITE_ACCESS` are defined in `neobolt/routing.py`,
which is not part of the analysed sources). -/
inductive AccessMode where
  | read
  | write
deriving DecidableEq

/-- Modelled from the spec: the printable name of an access mode, used
when an access mode is interpolated into an error message. -/
def AccessMode.toStr : AccessMode → String
  | .read => "READ"
  | .write => "WRITE"

/-- Modelled from the spec: the default Bolt port used when an address
string carries no explicit port (`DEFAULT_PORT` lives in
`neobolt/direct.py`, which is not part of the analysed sources; its
value is irrelevant to every claim). -/
def DEFAULT_PORT : Nat := 7687

/-- `OrderedDict.fromkeys`: keep the first occurrence of every element,
preserving insertion order.  (`dedupAux seen l` drops the elements of
`l` already in `seen`.) -/
def dedupAux [DecidableEq α] (seen : List α) : List α → List α
  | [] => []
  | a :: l => if a ∈ seen then dedupAux seen l else a :: dedupAux (a :: seen) l

/-- The contents of `OrderedSet(elements)`: first-occurrence
deduplication with insertion order preserved. -/
def dedupF [DecidableEq α] (l : List α) : List α :=
  dedupAux [] l

/-- Split a character list at its last colon: returns
`(chars before, chars after)`, or `none` when no colon occurs. -/
def lastColonSplit : List Char → Option (List Char × List Char)
  | [] => none
  | c :: rest =>
    match lastColonSplit rest with
    | some (h, p) => some (c :: h, p)
    | none => if c = ':' then some ([], rest) else none

/-- Parse a non-empty decimal digit string into a natural number. -/
def digitsToNat : List Char → Option Nat
  | [] => none
  | cs => go cs 0
where
  go : List Char → Nat → Option Nat
    | [], acc => some acc
    | c :: rest, acc =>
      if c.isDigit then go rest (acc * 10 + (c.toNat - '0'.toNat)) else none

/-- Modelled from the spec: `SocketAddress.parse(address, DEFAULT_PORT)`
from `neobolt/impl/python/addressing.py`, which is not part of the
analysed sources.  Per the spec, each address is parsed as `host[:port]`
with the given default port when the port is absent, and parse failures
propagate as `RoutingProtocolError`. -/
def SocketAddress.parse (v : PyVal) (defaultPort : Nat) : Except PyError Address :=
  match v with
  | .str s =>
    match lastColonSplit s.data with
    | none => .ok ⟨s, defaultPort⟩
    | some (h, p) =>
      match digitsToNat p with
      | some n => .ok ⟨String.mk h, n⟩
      | none => .error (.routingProtocolError ("Cannot parse address " ++ s))
  | _ => .error (.routingProtocolError "Cannot parse address")

/-- First-match lookup in a Python dict's entry list. -/
def lookupStr (k : String) : List (String × PyVal) → Option PyVal
  | [] => none
  | (k', v) :: rest => if k' = k then some v else lookupStr k rest

/-- Python subscription `v[k]` with a string key: `KeyError` when the
key is absent from a dict, `TypeError` when `v` is not a dict. -/
def pyGetItem (v : PyVal) (k : String) : Except PyError PyVal :=
  match v with
  | .dict entries =>
    match lookupStr k entries with
    | some x => .ok x
    | none => .error .keyError
  | _ => .error .typeError

/-- Python iteration `for x in v`: lists yield their elements, strings
their characters (as one-character strings), dicts their keys;
non-iterables raise `TypeError`. -/
def pyIter (v : PyVal) : Except PyError (List PyVal) :=
  match v with
  | .list xs => .ok xs
  | .str s => .ok (s.data.map (fun c => .str (String.mk [c])))
  | .dict entries => .ok (entries.map (fun kv => .str kv.1))
  | .int _ => .error .typeError

/-- Python equality between a dynamic value and a string literal
(`role == "ROUTE"`): `False` for every non-string value. -/
def pyEqStr (v : PyVal) (s : String) : Bool :=
  match v with
  | .str t => t = s
  | _ => false

/-- The state of a `RoutingTable`: the three role `OrderedSet`s (listed
in insertion order, duplicate-free), the raw `ttl` value and the
`last_updated_time` timestamp.  `ttl` is kept as a dynamic value because
`parse_routing_info` stores `record["ttl"]` without any type check. -/
structure RTable where
  routers : List Address
  readers : List Address
  writers : List Address
  ttl : PyVal
  last_updated : Int

instance : Inhabited RTable := ⟨[], [], [], .int 0, 0⟩

/-- `RoutingTable.__init__(routers, readers, writers, ttl)`: each role
list is wrapped in an `OrderedSet` (first-occurrence deduplication) and
`last_updated_time` is set from the timer (`now`). -/
def mkRoutingTable (routers readers writers : List Address) (ttl : PyVal) (now : Int) : RTable :=
  { routers := dedupF routers
    readers := dedupF readers
    writers := dedupF writers
    ttl := ttl
    last_updated := now }

/-- The inner `for address in server["addresses"]` loop of
`parse_routing_info`: parse each entry with the default port. -/
def parseAddresses : List PyVal → Except PyError (List Address)
  | [] => .ok []
  | v :: rest =>
    match SocketAddress.parse v DEFAULT_PORT with
    | .error e => .error e
    | .ok a =>
      match parseAddresses rest with
      | .error e => .error e
      | .ok as => .ok (a :: as)

/-- The `for server in servers` loop of `parse_routing_info`: look up
`role` and `addresses`, parse the addresses, and extend the accumulator
list named by the role; unrecognised roles are ignored. -/
def parseServers : List PyVal → List Address × List Address × List Address →
    Except PyError (List Address × List Address × List Address)
  | [], acc => .ok acc
  | server :: rest, (routers, readers, writers) =>
    match pyGetItem server "role" with
    | .error e => .error e
    | .ok role =>
      match pyGetItem server "addresses" with
      | .error e => .error e
      | .ok addrsVal =>
        match pyIter addrsVal with
        | .error e => .error e
        | .ok items =>
          match parseAddresses items with
          | .error e => .error e
          | .ok addresses =>
            if pyEqStr role "ROUTE" then
              parseServers rest (routers ++ addresses, readers, writers)
            else if pyEqStr role "READ" then
              parseServers rest (routers, readers ++ addresses, writers)
            else if pyEqStr role "WRITE" then
              parseServers rest (routers, readers, writers ++ addresses)
            else
              parseServers rest (routers, readers, writers)

/-- The body of the `try` block of `parse_routing_info`: extract
`record["servers"]`, iterate it through the server loop, then read
`record["ttl"]`. -/
def parseBody (record : PyVal) :
    Except PyError (List Address × List Address × List Address × PyVal) :=
  match pyGetItem record "servers" with
  | .error e => .error e
  | .ok servers =>
    match pyIter servers with
    | .error e => .error e
    | .ok serverList =>
      match parseServers serverList ([], [], []) with
      | .error e => .error e
      | .ok (routers, readers, writers) =>
        match pyGetItem record "ttl" with
        | .error e => .error e
        | .ok ttl => .ok (routers, readers, writers, ttl)

/-- `RoutingTable.parse_routing_info(records)`: reject record lists of
length ≠ 1, run the `try` block on the single record, turn a caught
`KeyError`/`TypeError` into `RoutingProtocolError("Cannot parse routing
info")`, and otherwise build the table (timestamped `now`). -/
def parse_routing_info (now : Int) (records : List PyVal) : Except PyError RTable :=
  match records with
  | [record] =>
    match parseBody record with
    | .error .keyError => .error (.routingProtocolError "Cannot parse routing info")
    | .error .typeError => .error (.routingProtocolError "Cannot parse routing info")
    | .error e => .error e
    | .ok (routers, readers, writers, ttl) =>
      .ok (mkRoutingTable routers readers writers ttl now)
  | _ => .error (.routingProtocolError "Expected exactly one record")

/-- `RoutingTable.is_fresh(access_mode)` evaluated when the timer reads
`now`: `not expired and routers and has_server_for_mode`, where
`expired = last_updated_time + ttl <= now`.  The addition raises
`TypeError` when the stored `ttl` is not a number. -/
def is_fresh (t : RTable) (now : Int) (mode : AccessMode) : Except PyError Bool :=
  match t.ttl with
  | .int k =>
    let expired : Bool := decide (t.last_updated + k ≤ now)
    let has_server_for_mode : Bool :=
      match mode with
      | .read => !t.readers.isEmpty
      | .write => !t.writers.isEmpty
    .ok (!expired && !t.routers.isEmpty && has_server_for_mode)
  | _ => .error .typeError

/-- `RoutingTable.update(new_routing_table)`: `replace` the contents of
each role set with the new contents, stamp `last_updated_time` from the
timer (`now`), and copy `ttl`. -/
def updateTable (new_routing_table : RTable) (now : Int) : RTable :=
  { routers := dedupF new_routing_table.routers
    readers := dedupF new_routing_table.readers
    writers := dedupF new_routing_table.writers
    ttl := new_routing_table.ttl
    last_updated := now }

/-- Membership in `RoutingTable.servers()`, the union of the three role
sets. -/
def serversMem (t : RTable) (a : Address) : Prop :=
  a ∈ t.routers ∨ a ∈ t.writers ∨ a ∈ t.readers

instance (t : RTable) (a : Address) : Decidable (serversMem t a) := by
  unfold serversMem; infer_instance

/-- `sys.maxsize` on a 64-bit CPython, the initial value of
`least_in_use_connections`. -/
def maxsize : Nat := 2 ^ 63 - 1

/-- One iteration of the `while` loop of
`LeastConnectedLoadBalancingStrategy._select`: adopt the address when
its in-use count is strictly below the best count so far. -/
def lcStep (inUse : Address → Nat) (p : Option Address × Nat) (a : Address) :
    Option Address × Nat :=
  if inUse a < p.2 then (some a, inUse a) else p

/-- The ring walk of `_select`: starting at `start`, the loop visits the
indices `(start + k) % n` for `k = 0, …, n-1` in that order. -/
def walkList (start : Nat) (addresses : List Address) : List Address :=
  (List.range addresses.length).map
    (fun k => addresses.getD ((start + k) % addresses.length) default)

/-- `LeastConnectedLoadBalancingStrategy._select(offset, addresses)`:
`None` on an empty list, otherwise the fold of the strict-improvement
step over the ring walk starting at `offset % len(addresses)`, beginning
from `(None, maxsize)`. -/
def lcSelect (inUse : Address → Nat) (offset : Nat) (addresses : List Address) :
    Option Address :=
  if addresses.isEmpty then none
  else (List.foldl (lcStep inUse) (none, maxsize)
    (walkList (offset % addresses.length) addresses)).1

/-- The state of a `LeastConnectedLoadBalancingStrategy`: the two
monotonically increasing offsets. -/
structure LBState where
  readers_offset : Nat
  writers_offset : Nat
deriving DecidableEq, Repr

/-- `select_reader(known_readers)`: run `_select` with the readers
offset, then increment the offset (after the call, regardless of
outcome). -/
def select_reader (inUse : Address → Nat) (known_readers : List Address)
    (lb : LBState) : Option Address × LBState :=
  (lcSelect inUse lb.readers_offset known_readers,
    { lb with readers_offset := lb.readers_offset + 1 })

/-- `select_writer(known_writers)`: run `_select` with the writers
offset, then increment the offset (after the call, regardless of
outcome). -/
def select_writer (inUse : Address → Nat) (known_writers : List Address)
    (lb : LBState) : Option Address × LBState :=
  (lcSelect inUse lb.writers_offset known_writers,
    { lb with writers_offset := lb.writers_offset + 1 })

/-- Outcome of `fetch_routing_info(address)` for a given router, as seen
from `fetch_routing_table`: either a list of routing records, or a
`ServiceUnavailable` while connecting (upon which the router is
deactivated and `None` is returned), or a `RoutingProtocolError` inside
the procedure call, re-raised as `ServiceUnavailable(msg)`. -/
inductive FetchInfoResult where
  | records (rs : List PyVal)
  | unavailable
  | protoFail (msg : String)

/-- Outcome of `acquire_direct(address)`: a live connection or
`ServiceUnavailable`. -/
inductive AcquireDirectResult where
  | conn
  | unavailable

/-- The deterministic abstraction of everything behind the network: raw
routing-info fetches, direct connection acquisition, and the in-use
connection counts consulted by the load balancer. -/
structure NetworkOracle where
  fetchInfo : Address → FetchInfoResult
  acquireDirect : Address → AcquireDirectResult
  inUse : Address → Nat

/-- A pooled connection as far as the routing layer observes it: its
address, and whether `acquire` has re-tagged its error class to
`ConnectionExpired`. -/
structure Conn where
  address : Address
  errorExpired : Bool
deriving DecidableEq, Repr

/-- The mutable state of a `RoutingConnectionPool`: the bootstrap
address, the routing table, the missing-writer flag, the load-balancer
offsets, the addresses known to the underlying direct pool
(`self.connections`), and the frozen timer reading. -/
structure PoolState where
  initial_address : Address
  routing_table : RTable
  missing_writer : Bool
  lb : LBState
  connections : List Address
  now : Int

/-- `RoutingConnectionPool.deactivate(address)`: discard the address
from all three role sets and from the underlying direct pool. -/
def deactivate (a : Address) (st : PoolState) : PoolState :=
  { st with
    routing_table :=
      { st.routing_table with
        routers := st.routing_table.routers.filter (· ≠ a)
        readers := st.routing_table.readers.filter (· ≠ a)
        writers := st.routing_table.writers.filter (· ≠ a) }
    connections := st.connections.filter (· ≠ a) }

/-- `RoutingConnectionPool.remove_writer(address)`: discard the address
from the writers set only. -/
def remove_writer (a : Address) (st : PoolState) : PoolState :=
  { st with
    routing_table :=
      { st.routing_table with
        writers := st.routing_table.writers.filter (· ≠ a) } }

/-- `RoutingConnectionPool.fetch_routing_info(address)` as a state
transformer over the oracle: records pass through, a
`RoutingProtocolError` is re-raised as `ServiceUnavailable`, and
`ServiceUnavailable` during connection deactivates the router and
returns `None`. -/
def fetch_routing_info (o : NetworkOracle) (a : Address) (st : PoolState) :
    PoolState × Except PyError (Option (List PyVal)) :=
  match o.fetchInfo a with
  | .records rs => (st, .ok (some rs))
  | .protoFail m => (st, .error (.serviceUnavailable m))
  | .unavailable => (deactivate a st, .ok none)

/-- The `repr` of an address as interpolated into the
`RoutingProtocolError` messages of `fetch_routing_table`. -/
def addrRepr (a : Address) : String :=
  a.host ++ ":" ++ toString a.port

/-- `RoutingConnectionPool.fetch_routing_table(address)`: fetch raw
records, parse them, set `missing_writer` from the writer count, then
reject candidates with no routers or no readers. -/
def fetch_routing_table (o : NetworkOracle) (a : Address) (st : PoolState) :
    PoolState × Except PyError (Option RTable) :=
  match fetch_routing_info o a st with
  | (st1, .error e) => (st1, .error e)
  | (st1, .ok none) => (st1, .ok none)
  | (st1, .ok (some rs)) =>
    match parse_routing_info st1.now rs with
    | .error e => (st1, .error e)
    | .ok t =>
      let st2 := { st1 with missing_writer := t.writers.isEmpty }
      if t.routers.isEmpty then
        (st2, .error (.routingProtocolError
          ("No routing servers returned from server " ++ addrRepr a)))
      else if t.readers.isEmpty then
        (st2, .error (.routingProtocolError
          ("No read servers returned from server " ++ addrRepr a)))
      else
        (st2, .ok (some t))

/-- `RoutingConnectionPool.update_routing_table_from(*routers)`: walk
the given routers; the first fetched table replaces the current routing
table's contents and yields `True`; yield `False` when every router
returned `None`. -/
def update_routing_table_from (o : NetworkOracle) :
    List Address → PoolState → PoolState × Except PyError Bool
  | [], st => (st, .ok false)
  | router :: rest, st =>
    match fetch_routing_table o router st with
    | (st1, .error e) => (st1, .error e)
    | (st1, .ok (some t)) =>
      ({ st1 with routing_table := updateTable t st1.now }, .ok true)
    | (st1, .ok none) => update_routing_table_from o rest st1

/-- `RoutingConnectionPool.update_routing_table()`: snapshot the current
routers, try the initial address first when `missing_writer` is set,
then the snapshot, then the initial address when it was neither tried
nor in the snapshot; raise `ServiceUnavailable` when all fail. -/
def update_routing_table (o : NetworkOracle) (st : PoolState) :
    PoolState × Except PyError Unit :=
  let existing_routers := st.routing_table.routers
  if st.missing_writer then
    match update_routing_table_from o [st.initial_address] st with
    | (st1, .error e) => (st1, .error e)
    | (st1, .ok true) => (st1, .ok ())
    | (st1, .ok false) =>
      match update_routing_table_from o existing_routers st1 with
      | (st2, .error e) => (st2, .error e)
      | (st2, .ok true) => (st2, .ok ())
      | (st2, .ok false) =>
        (st2, .error (.serviceUnavailable "Unable to retrieve routing information"))
  else
    match update_routing_table_from o existing_routers st with
    | (st1, .error e) => (st1, .error e)
    | (st1, .ok true) => (st1, .ok ())
    | (st1, .ok false) =>
      if st.initial_address ∈ existing_routers then
        (st1, .error (.serviceUnavailable "Unable to retrieve routing information"))
      else
        match update_routing_table_from o [st.initial_address] st1 with
        | (st2, .error e) => (st2, .error e)
        | (st2, .ok true) => (st2, .ok ())
        | (st2, .ok false) =>
          (st2, .error (.serviceUnavailable "Unable to retrieve routing information"))

/-- `RoutingConnectionPool.update_connection_pool()`: deactivate, in the
underlying direct pool only, every known address outside
`routing_table.servers()`. -/
def update_connection_pool (st : PoolState) : PoolState :=
  { st with connections :=
      st.connections.filter (fun a => decide (serversMem st.routing_table a)) }

/-- `RoutingConnectionPool.ensure_routing_table_is_fresh(access_mode)`:
double-checked freshness around the refresh lock; in the fresh-for-READ
recheck, refresh `missing_writer` from WRITE freshness; otherwise run
`update_routing_table()` followed by `update_connection_pool()`. -/
def ensure_routing_table_is_fresh (o : NetworkOracle) (mode : AccessMode)
    (st : PoolState) : PoolState × Except PyError Bool :=
  match is_fresh st.routing_table st.now mode with
  | .error e => (st, .error e)
  | .ok true => (st, .ok false)
  | .ok false =>
    match is_fresh st.routing_table st.now mode with
    | .error e => (st, .error e)
    | .ok true =>
      if mode = .read then
        match is_fresh st.routing_table st.now .write with
        | .error e => (st, .error e)
        | .ok wf => ({ st with missing_writer := !wf }, .ok false)
      else
        (st, .ok false)
    | .ok false =>
      match update_routing_table o st with
      | (st1, .error e) => (st1, .error e)
      | (st1, .ok _) => (update_connection_pool st1, .ok true)

/-- The role set consulted by `acquire` for a mode: `readers` for READ,
`writers` for WRITE. -/
def roleSet (st : PoolState) : AccessMode → List Address
  | .read => st.routing_table.readers
  | .write => st.routing_table.writers

/-- The selector dispatched by `acquire` for a mode, applied to the
current contents of the mode's role set. -/
def selectForMode (o : NetworkOracle) (mode : AccessMode) (st : PoolState) :
    Option Address × LBState :=
  match mode with
  | .read => select_reader o.inUse st.routing_table.readers st.lb
  | .write => select_writer o.inUse st.routing_table.writers st.lb

/-- Store back the load-balancer state produced by a selector call. -/
def setLB (st : PoolState) (lb : LBState) : PoolState :=
  { st with lb := lb }

theorem mem_dedupAux [DecidableEq α] {a : α} :
    ∀ {l seen : List α}, a ∈ dedupAux seen l ↔ a ∈ l ∧ a ∉ seen := by
  intro l
  induction l with
  | nil => intro seen; simp [dedupAux]
  | cons x xs ih =>
    intro seen
    by_cases hx : x ∈ seen
    · simp only [dedupAux, if_pos hx, ih]
      constructor
      · rintro ⟨h1, h2⟩
        exact ⟨List.mem_cons_of_mem _ h1, h2⟩
      · rintro ⟨h1, h2⟩
        rcases List.mem_cons.mp h1 with h | h
        · subst h; exact absurd hx h2
        · exact ⟨h, h2⟩
    · simp only [dedupAux, if_neg hx, List.mem_cons, ih]
      constructor
      · rintro (h | ⟨h1, h2⟩)
        · subst h; exact ⟨Or.inl rfl, hx⟩
        · refine ⟨Or.inr h1, fun hc => h2 (Or.inr hc)⟩
      · rintro ⟨h1 | h1, h2⟩
        · exact Or.inl h1
        · by_cases hax : a = x
          · exact Or.inl hax
          · exact Or.inr ⟨h1, fun hc => hc.elim hax h2⟩

theorem mem_dedupF [DecidableEq α] {a : α} {l : List α} :
    a ∈ dedupF l ↔ a ∈ l := by
  simp [dedupF, mem_dedupAux]

theorem dedupF_eq_nil [DecidableEq α] {l : List α} :
    dedupF l = [] ↔ l = [] := by
  constructor
  · intro h
    cases l with
    | nil => rfl
    | cons x xs =>
      exfalso
      have : x ∈ dedupF (x :: xs) := mem_dedupF.mpr (List.mem_cons_self _ _)
      rw [h] at this
      exact List.not_mem_nil _ this
  · intro h; subst h; rfl

theorem length_filter_ne_lt {a : α} [DecidableEq α] :
    ∀ {l : List α}, a ∈ l → (l.filter (· ≠ a)).length < l.length := by
  intro l
  induction l with
  | nil => intro h; cases h
  | cons x xs ih =>
    intro h
    by_cases hx : x = a
    · subst hx
      have hfe : (x :: xs).filter (· ≠ x) = xs.filter (· ≠ x) := by
        simp [List.filter_cons]
      have hle : ((x :: xs).filter (· ≠ x)).length ≤ xs.length :=
        hfe ▸ List.length_filter_le _ _
      simp only [List.length_cons]
      omega
    · have h1 : a ∈ xs := by
        rcases List.mem_cons.mp h with h2 | h2
        · exact absurd h2.symm hx
        · exact h2
      have hfe : (x :: xs).filter (· ≠ a) = x :: xs.filter (· ≠ a) := by
        simp [List.filter_cons, hx]
      rw [hfe]
      simp only [List.length_cons]
      exact Nat.succ_lt_succ (ih h1)

theorem walkList_length (start : Nat) (l : List Address) :
    (walkList start l).length = l.length := by
  simp [walkList]

theorem walkList_eq_rotate (start : Nat) (l : List Address) :
    walkList start l = l.rotate start := by
  cases l with
  | nil => simp [walkList, List.rotate]
  | cons x xs =>
    apply List.ext_getElem
    · simp [walkList_length, List.length_rotate]
    · intro i h1 h2
      have hlen : 0 < (x :: xs).length := by simp
      have hi : i < (x :: xs).length := by
        simpa [walkList_length] using h1
      simp only [walkList, List.getElem_map, List.getElem_range]
      rw [Nat.add_comm start i]
      rw [List.getD_eq_getElem?_getD, List.getElem?_eq_getElem
        (Nat.mod_lt _ hlen), Option.getD_some, List.getElem_rotate]

theorem mem_walkList {a : Address} {start : Nat} {l : List Address} :
    a ∈ walkList start l ↔ a ∈ l := by
  rw [walkList_eq_rotate]; exact List.mem_rotate

theorem foldl_lcStep_fst (u : Address → Nat) :
    ∀ (l : List Address) (b : Option Address) (c : Nat),
      (List.foldl (lcStep u) (b, c) l).1 = b ∨
        ∃ a ∈ l, (List.foldl (lcStep u) (b, c) l).1 = some a := by
  intro l
  induction l with
  | nil => intro b c; exact Or.inl rfl
  | cons x xs ih =>
    intro b c
    simp only [List.foldl_cons]
    by_cases hx : u x < c
    · simp only [lcStep, hx, if_pos hx]
      rcases ih (some x) (u x) with h | ⟨a, ha, h⟩
      · exact Or.inr ⟨x, List.mem_cons_self _ _, h⟩
      · exact Or.inr ⟨a, List.mem_cons_of_mem _ ha, h⟩
    · simp only [lcStep, if_neg hx]
      rcases ih b c with h | ⟨a, ha, h⟩
      · exact Or.inl h
      · exact Or.inr ⟨a, List.mem_cons_of_mem _ ha, h⟩

theorem lcSelect_mem {u : Address → Nat} {off : Nat} {l : List Address} {a : Address}
    (h : lcSelect u off l = some a) : a ∈ l := by
  unfold lcSelect at h
  by_cases hl : l.isEmpty
  · rw [if_pos hl] at h; cases h
  · rw [if_neg hl] at h
    rcases foldl_lcStep_fst u (walkList (off % l.length) l) none maxsize with h1 | ⟨b, hb, h1⟩
    · rw [h1] at h; cases h
    · rw [h1] at h
      cases h
      exact mem_walkList.mp hb

theorem roleSet_setLB (st : PoolState) (lb : LBState) (mode : AccessMode) :
    roleSet (setLB st lb) mode = roleSet st mode := by
  cases mode <;> rfl

theorem roleSet_deactivate (a : Address) (st : PoolState) (mode : AccessMode) :
    roleSet (deactivate a st) mode = (roleSet st mode).filter (· ≠ a) := by
  cases mode <;> rfl

theorem selectForMode_mem {o : NetworkOracle} {mode : AccessMode} {st : PoolState}
    {a : Address} {lb : LBState} (h : selectForMode o mode st = (some a, lb)) :
    a ∈ roleSet st mode := by
  cases mode <;>
    simp only [selectForMode, select_reader, select_writer, Prod.mk.injEq] at h <;>
    exact lcSelect_mem h.1

/-- The error message raised when `acquire`'s loop runs out of
addresses; the access mode is interpolated into the middle. -/
def acquireFailPre : String := "Failed to obtain connection towards \x27"

/-- The tail of the message around the interpolated access mode. -/
def acquireFailPost : String := "\x27 server."

/-- The `while True` loop of `RoutingConnectionPool.acquire`: select an
address from the current contents of the mode's role set; stop with
`ConnectionExpired` when the selector yields nothing; otherwise acquire
directly, deactivating the address and looping on `ServiceUnavailable`,
and on success tag the connection's error class as `ConnectionExpired`
and return it. -/
def acquireLoop (o : NetworkOracle) (mode : AccessMode) (st : PoolState) :
    PoolState × Except PyError Conn :=
  match h : selectForMode o mode st with
  | (none, lb1) =>
    (setLB st lb1, .error (.connectionExpired
      (acquireFailPre ++ mode.toStr ++ acquireFailPost)))
  | (some a, lb1) =>
    match o.acquireDirect a with
    | .conn => (setLB st lb1, .ok ⟨a, true⟩)
    | .unavailable => acquireLoop o mode (deactivate a (setLB st lb1))
termination_by (roleSet st mode).length
decreasing_by
  rw [roleSet_deactivate, roleSet_setLB]
  exact length_filter_ne_lt (selectForMode_mem h)

/-- `RoutingConnectionPool.acquire(access_mode)`: default the mode to
WRITE, ensure the routing table is fresh for it, then run the selection
loop.  (The source captures `server_list` before the freshness check;
because `RoutingTable.update` replaces set contents in place, the loop
observes the refreshed contents, which is how the loop is modelled
here.) -/
def acquire (o : NetworkOracle) (modeOpt : Option AccessMode) (st : PoolState) :
    PoolState × Except PyError Conn :=
  let mode := modeOpt.getD .write
  match ensure_routing_table_is_fresh o mode st with
  | (st1, .error e) => (st1, .error e)
  | (st1, .ok _) => acquireLoop o mode st1

/-- A Python exception class as compared by `handle`: the five
neobolt classes the source lists, proper subclasses of arbitrary
classes (a subclass is a class object distinct from its parent), and
unrelated classes. -/
inductive PyExcClass where
  | connectionExpired
  | serviceUnavailable
  | databaseUnavailableError
  | notALeaderError
  | forbiddenOnReadOnlyDatabaseError
  | subclassOf (parent : PyExcClass) (name : String)
  | other (name : String)
deriving DecidableEq

/-- `RoutingConnectionPool.handle(error, connection)`: compare
`error.__class__` against two tuples of classes (tuple membership in
Python compares class objects for equality, i.e. exactly, not by
subclass) and deactivate the connection's address, remove it from the
writers, or do nothing. -/
def handle (error_class : PyExcClass) (connection_address : Address)
    (st : PoolState) : PoolState :=
  if error_class = .connectionExpired ∨ error_class = .serviceUnavailable ∨
      error_class = .databaseUnavailableError then
    deactivate connection_address st
  else if error_class = .notALeaderError ∨
      error_class = .forbiddenOnReadOnlyDatabaseError then
    remove_writer connection_address st
  else
    st

/-- An `OrderedSet` together with its object identity: `ref` is a ghost
token standing for the Python object's identity, `elems` for the dict's
current keys.  Content mutations (`replace`, `add`, `discard`) keep
`ref`; only constructing a new `OrderedSet` allocates a new `ref`. -/
structure OrderedSetH where
  ref : Nat
  elems : List Address
deriving DecidableEq, Repr

/-- `OrderedSet.replace(elements)`: clear the underlying dict and refill
it from the new elements — an in-place mutation, so the identity token
is preserved. -/
def OrderedSetH.replaceContents (s : OrderedSetH) (elements : List Address) :
    OrderedSetH :=
  { s with elems := dedupF elements }

/-- A `RoutingTable` whose role sets carry object identities. -/
structure RTableH where
  routers : OrderedSetH
  readers : OrderedSetH
  writers : OrderedSetH
  ttl : PyVal
  last_updated : Int

/-- `RoutingTable.__init__` in the identity model: construct the three
`OrderedSet` objects with consecutive fresh identity tokens from the
allocator `alloc`, returning the table and the advanced allocator. -/
def mkRTableH (alloc : Nat) (routers readers writers : List Address)
    (ttl : PyVal) (now : Int) : RTableH × Nat :=
  (⟨⟨alloc, dedupF routers⟩, ⟨alloc + 1, dedupF readers⟩,
    ⟨alloc + 2, dedupF writers⟩, ttl, now⟩, alloc + 3)

/-- `RoutingTable.update(new_routing_table)` in the identity model:
`replace` the contents of each existing role-set object in place (note
the type: no allocator is threaded, so no new set object can be
created), stamp the timestamp, copy `ttl`. -/
def updateH (t new_routing_table : RTableH) (now : Int) : RTableH :=
  { routers := t.routers.replaceContents new_routing_table.routers.elems
    readers := t.readers.replaceContents new_routing_table.readers.elems
    writers := t.writers.replaceContents new_routing_table.writers.elems
    ttl := new_routing_table.ttl
    last_updated := now }

/-- Dereference a captured set object: look the identity token up among
the three role sets of a table and return the current contents. -/
def derefSetH (t : RTableH) (r : Nat) : Option (List Address) :=
  if t.routers.ref = r then some t.routers.elems
  else if t.readers.ref = r then some t.readers.elems
  else if t.writers.ref = r then some t.writers.elems
  else none

theorem parse_ok_shape {now : Int} {records : List PyVal} {t : RTable}
    (h : parse_routing_info now records = .ok t) :
    ∃ record routers readers writers ttl, records = [record] ∧
      parseBody record = .ok (routers, readers, writers, ttl) ∧
      t = mkRoutingTable routers readers writers ttl now := by
  cases records with
  | nil => simp [parse_routing_info] at h
  | cons r rest =>
    cases rest with
    | cons r2 rest2 => simp [parse_routing_info] at h
    | nil =>
      simp only [parse_routing_info] at h
      cases hb : parseBody r with
      | error e => rw [hb] at h; cases e <;> simp at h
      | ok quad =>
        rw [hb] at h
        obtain ⟨routers, readers, writers, ttl⟩ := quad
        simp only [Except.ok.injEq] at h
        exact ⟨r, routers, readers, writers, ttl, rfl, hb, h.symm⟩

theorem socketParse_error {v : PyVal} {p : Nat} {e : PyError}
    (h : SocketAddress.parse v p = .error e) : ∃ m, e = .routingProtocolError m := by
  cases v <;> simp only [SocketAddress.parse] at h
  case str s =>
    cases hs : lastColonSplit s.data with
    | none => rw [hs] at h; cases h
    | some hp =>
      obtain ⟨hh, pp⟩ := hp
      rw [hs] at h
      dsimp only at h
      cases hd : digitsToNat pp with
      | none =>
        rw [hd] at h
        cases h
        exact ⟨_, rfl⟩
      | some n => rw [hd] at h; cases h
  all_goals (cases h; exact ⟨_, rfl⟩)

theorem parseAddresses_error :
    ∀ {items : List PyVal} {e : PyError}, parseAddresses items = .error e →
      e = .keyError ∨ e = .typeError ∨ ∃ m, e = .routingProtocolError m := by
  intro items
  induction items with
  | nil => intro e h; cases h
  | cons v rest ih =>
    intro e h
    simp only [parseAddresses] at h
    cases hs : SocketAddress.parse v DEFAULT_PORT with
    | error e1 =>
      rw [hs] at h
      cases h
      exact Or.inr (Or.inr (socketParse_error hs))
    | ok a =>
      rw [hs] at h
      cases hr : parseAddresses rest with
      | error e2 => rw [hr] at h; cases h; exact ih hr
      | ok as => rw [hr] at h; cases h

theorem pyGetItem_error {v : PyVal} {k : String} {e : PyError}
    (h : pyGetItem v k = .error e) : e = .keyError ∨ e = .typeError := by
  cases v <;> simp only [pyGetItem] at h
  case dict entries =>
    cases hl : lookupStr k entries with
    | some x => rw [hl] at h; cases h
    | none => rw [hl] at h; cases h; exact Or.inl rfl
  all_goals (cases h; exact Or.inr rfl)

theorem pyIter_error {v : PyVal} {e : PyError} (h : pyIter v = .error e) :
    e = .typeError := by
  cases v <;> simp only [pyIter] at h <;> first | cases h; rfl | cases h

theorem parseServers_error :
    ∀ {servers : List PyVal} {acc} {e : PyError}, parseServers servers acc = .error e →
      e = .keyError ∨ e = .typeError ∨ ∃ m, e = .routingProtocolError m := by
  intro servers
  induction servers with
  | nil => intro acc e h; cases h
  | cons server rest ih =>
    intro acc e h
    obtain ⟨routers, readers, writers⟩ := acc
    simp only [parseServers] at h
    cases h1 : pyGetItem server "role" with
    | error e1 =>
      rw [h1] at h; cases h
      rcases pyGetItem_error h1 with h2 | h2 <;> [exact Or.inl h2; exact Or.inr (Or.inl h2)]
    | ok role =>
      rw [h1] at h
      dsimp only at h
      cases h2 : pyGetItem server "addresses" with
      | error e2 =>
        rw [h2] at h; cases h
        rcases pyGetItem_error h2 with h3 | h3 <;> [exact Or.inl h3; exact Or.inr (Or.inl h3)]
      | ok addrsVal =>
        rw [h2] at h
        dsimp only at h
        cases h3 : pyIter addrsVal with
        | error e3 =>
          rw [h3] at h; cases h
          exact Or.inr (Or.inl (pyIter_error h3))
        | ok items =>
          rw [h3] at h
          dsimp only at h
          cases h4 : parseAddresses items with
          | error e4 =>
            rw [h4] at h; cases h
            exact parseAddresses_error h4
          | ok addresses =>
            rw [h4] at h
            dsimp only at h
            by_cases hr : pyEqStr role "ROUTE" = true
            · rw [if_pos hr] at h; exact ih h
            · rw [if_neg hr] at h
              by_cases hrd : pyEqStr role "READ" = true
              · rw [if_pos hrd] at h; exact ih h
              · rw [if_neg hrd] at h
                by_cases hw : pyEqStr role "WRITE" = true
                · rw [if_pos hw] at h; exact ih h
                · rw [if_neg hw] at h; exact ih h

theorem parseBody_error {record : PyVal} {e : PyError}
    (h : parseBody record = .error e) :
    e = .keyError ∨ e = .typeError ∨ ∃ m, e = .routingProtocolError m := by
  simp only [parseBody] at h
  cases h1 : pyGetItem record "servers" with
  | error e1 =>
    rw [h1] at h; cases h
    rcases pyGetItem_error h1 with h2 | h2 <;> [exact Or.inl h2; exact Or.inr (Or.inl h2)]
  | ok servers =>
    rw [h1] at h
    dsimp only at h
    cases h2 : pyIter servers with
    | error e2 =>
      rw [h2] at h; cases h
      exact Or.inr (Or.inl (pyIter_error h2))
    | ok serverList =>
      rw [h2] at h
      dsimp only at h
      cases h3 : parseServers serverList ([], [], []) with
      | error e3 =>
        rw [h3] at h; cases h
        exact parseServers_error h3
      | ok triple =>
        obtain ⟨routers, readers, writers⟩ := triple
        rw [h3] at h
        dsimp only at h
        cases h4 : pyGetItem record "ttl" with
        | error e4 =>
          rw [h4] at h; cases h
          rcases pyGetItem_error h4 with h5 | h5 <;> [exact Or.inl h5; exact Or.inr (Or.inl h5)]
        | ok ttl => rw [h4] at h; cases h

theorem parse_error_is_rpe {now : Int} {records : List PyVal} {e : PyError}
    (h : parse_routing_info now records = .error e) :
    ∃ m, e = .routingProtocolError m := by
  cases records with
  | nil => cases h; exact ⟨_, rfl⟩
  | cons r rest =>
    cases rest with
    | cons r2 rest2 => cases h; exact ⟨_, rfl⟩
    | nil =>
      simp only [parse_routing_info] at h
      cases hb : parseBody r with
      | ok quad =>
        rw [hb] at h
        obtain ⟨routers, readers, writers, ttl⟩ := quad
        cases h
      | error e1 =>
        rw [hb] at h
        rcases parseBody_error hb with h1 | h1 | ⟨m, h1⟩ <;> subst h1
        · cases h; exact ⟨_, rfl⟩
        · cases h; exact ⟨_, rfl⟩
        · cases h; exact ⟨m, rfl⟩

theorem parseBody_ok_components {record : PyVal} {routers readers writers : List Address}
    {ttl : PyVal} (h : parseBody record = .ok (routers, readers, writers, ttl)) :
    ∃ sv sl, pyGetItem record "servers" = .ok sv ∧ pyIter sv = .ok sl ∧
      pyGetItem record "ttl" = .ok ttl := by
  simp only [parseBody] at h
  cases h1 : pyGetItem record "servers" with
  | error e1 => rw [h1] at h; cases h
  | ok sv =>
    rw [h1] at h
    dsimp only at h
    cases h2 : pyIter sv with
    | error e2 => rw [h2] at h; cases h
    | ok sl =>
      rw [h2] at h
      dsimp only at h
      cases h3 : parseServers sl ([], [], []) with
      | error e3 => rw [h3] at h; cases h
      | ok triple =>
        obtain ⟨r1, r2, r3⟩ := triple
        rw [h3] at h
        dsimp only at h
        cases h4 : pyGetItem record "ttl" with
        | error e4 => rw [h4] at h; cases h
        | ok ttlv =>
          rw [h4] at h
          dsimp only at h
          simp only [Except.ok.injEq, Prod.mk.injEq] at h
          exact ⟨sv, sl, rfl, h2, by rw [h.2.2.2]⟩

/-- Claim C1 (amended): for every record list accepted by
`parse_routing_info` whose `ttl` field is an integer `k`, evaluating
freshness immediately after parsing (i.e. at the construction
timestamp) yields `is_fresh(READ) = (k > 0 and routers non-empty and
readers non-empty)`, and symmetrically `is_fresh(WRITE) = (k > 0 and
routers non-empty and writers non-empty)`. -/
theorem c1_parse_freshness :
    ∀ (now : Int) (records : List PyVal) (t : RTable) (k : Int),
      parse_routing_info now records = .ok t → t.ttl = .int k →
      ((is_fresh t now .read = .ok true ↔
          (0 < k ∧ t.routers ≠ [] ∧ t.readers ≠ [])) ∧
       (is_fresh t now .write = .ok true ↔
          (0 < k ∧ t.routers ≠ [] ∧ t.writers ≠ []))) := by
  intro now records t k hparse httl
  obtain ⟨record, routers, readers, writers, ttl, hrec, hbody, ht⟩ := parse_ok_shape hparse
  subst ht
  have httl2 : ttl = .int k := httl
  subst httl2
  have hex : (¬ (now + k ≤ now)) ↔ 0 < k := by omega
  constructor <;>
  · simp only [is_fresh, mkRoutingTable, Except.ok.injEq, Bool.and_eq_true,
      Bool.not_eq_true', decide_eq_false_iff_not, List.isEmpty_eq_false,
      ne_eq, and_assoc]
    rw [hex]

def c1BadRecords : List PyVal :=
  [.dict [("servers", .list [.dict [("role", .str "READ"),
    ("addresses", .list [.str "127.0.0.1:9004"])]]), ("ttl", .int 300)]]

def c1BadTable : RTable :=
  match parse_routing_info 0 c1BadRecords with
  | .ok t => t
  | .error _ => default

/-- Claim C1 counterexample: a record list accepted by
`parse_routing_info` (a single record carrying one READ server and
`ttl = 300`) produces a table with non-empty readers and positive ttl
whose `is_fresh(READ)`, evaluated immediately after parsing, is
nevertheless false, because the routers set is empty — refuting
`is_fresh(READ) == (readers non-empty and ttl > 0)` as stated. -/
theorem c1_counterexample :
    parse_routing_info 0 c1BadRecords = .ok c1BadTable ∧
    c1BadTable.readers = [⟨"127.0.0.1", 9004⟩] ∧
    c1BadTable.ttl = .int 300 ∧
    c1BadTable.routers = [] ∧
    is_fresh c1BadTable 0 .read = .ok false := by
  exact ⟨rfl, rfl, rfl, rfl, rfl⟩

def c1GoodRecords : List PyVal :=
  [.dict [("servers", .list [
    .dict [("role", .str "ROUTE"), ("addresses", .list [.str "127.0.0.1:9001"])],
    .dict [("role", .str "READ"), ("addresses", .list [.str "127.0.0.1:9004"])],
    .dict [("role", .str "WRITE"), ("addresses", .list [.str "127.0.0.1:9006"])]]),
   ("ttl", .int 300)]]

def c1GoodTable : RTable :=
  match parse_routing_info 0 c1GoodRecords with
  | .ok t => t
  | .error _ => default

/-- Claim C1 witness: the amended characterisation applied to a
concrete record carrying all three roles and `ttl = 300`. -/
theorem c1_parse_freshness_witness :
    is_fresh c1GoodTable 0 .read = .ok true ∧
    is_fresh c1GoodTable 0 .write = .ok true := by
  have h := c1_parse_freshness 0 c1GoodRecords c1GoodTable 300 rfl rfl
  exact ⟨h.1.mpr ⟨by decide, by decide, by decide⟩,
    h.2.mpr ⟨by decide, by decide, by decide⟩⟩

/-- Claim C6 (amended): `parse_routing_info` raises
`RoutingProtocolError` for every input list whose length is not exactly
1, and for every single-record input whose record lacks a readable
`servers` field or a readable `ttl` field (missing key or non-mapping
record) or whose `servers` field is not iterable.  (A wrong-typed but
present `ttl` value, and a wrong-typed `servers` value that is an empty
iterable, are accepted unchecked — see the counterexample.) -/
theorem c6_parse_failure_modes :
    ∀ (now : Int) (records : List PyVal),
      (records.length ≠ 1 →
        parse_routing_info now records =
          .error (.routingProtocolError "Expected exactly one record")) ∧
      (∀ record, records = [record] →
        ((pyGetItem record "servers").isOk = false ∨
         (pyGetItem record "ttl").isOk = false ∨
         (∃ sv, pyGetItem record "servers" = .ok sv ∧ (pyIter sv).isOk = false)) →
        ∃ m, parse_routing_info now records = .error (.routingProtocolError m)) := by
  intro now records
  constructor
  · intro hlen
    cases records with
    | nil => rfl
    | cons r rest =>
      cases rest with
      | nil => simp at hlen
      | cons r2 rest2 => rfl
  · intro record hrecords hbad
    subst hrecords
    cases hp : parse_routing_info now [record] with
    | error e =>
      obtain ⟨m, hm⟩ := parse_error_is_rpe hp
      exact ⟨m, by rw [hm]⟩
    | ok t =>
      exfalso
      obtain ⟨record', routers, readers, writers, ttl, hrec, hbody, ht⟩ := parse_ok_shape hp
      have hreq : record' = record := by
        simpa using hrec.symm
      subst hreq
      obtain ⟨sv, sl, hsv, hsl, httl⟩ := parseBody_ok_components hbody
      rcases hbad with hb | hb | ⟨sv2, hsv2, hb⟩
      · rw [hsv] at hb; simp [Except.isOk, Except.toBool] at hb
      · rw [httl] at hb; simp [Except.isOk, Except.toBool] at hb
      · rw [hsv] at hsv2
        injection hsv2 with hsveq
        subst hsveq
        rw [hsl] at hb
        simp [Except.isOk, Except.toBool] at hb

def c6Record : PyVal := .dict [("servers", .str ""), ("ttl", .str "300s")]

/-- Claim C6 counterexample: a single-record input whose `servers` field
has the wrong type (a string, iterated without error because it is
empty) and whose `ttl` field has the wrong type (a string, stored
without any type check) is accepted by `parse_routing_info` instead of
raising `RoutingProtocolError`. -/
theorem c6_counterexample :
    parse_routing_info 0 [c6Record] =
      .ok { routers := [], readers := [], writers := [],
            ttl := .str "300s", last_updated := 0 } := rfl

/-- Claim C6 witness: the amended failure modes applied to concrete
inputs — the empty record list, and a single empty-mapping record
(missing `servers`). -/
theorem c6_parse_failure_modes_witness :
    parse_routing_info 0 [] =
      .error (.routingProtocolError "Expected exactly one record") ∧
    ∃ m, parse_routing_info 0 [.dict []] = .error (.routingProtocolError m) := by
  refine ⟨(c6_parse_failure_modes 0 []).1 (by decide), ?_⟩
  exact (c6_parse_failure_modes 0 [.dict []]).2 (.dict []) rfl (Or.inl rfl)

theorem fetch_routing_table_records_eq {o : NetworkOracle} {a : Address}
    {st : PoolState} {rs : List PyVal} {t : RTable}
    (ho : o.fetchInfo a = .records rs)
    (hp : parse_routing_info st.now rs = .ok t) :
    fetch_routing_table o a st =
      (if t.routers.isEmpty then
        ({ st with missing_writer := t.writers.isEmpty },
         .error (.routingProtocolError
           ("No routing servers returned from server " ++ addrRepr a)))
      else if t.readers.isEmpty then
        ({ st with missing_writer := t.writers.isEmpty },
         .error (.routingProtocolError
           ("No read servers returned from server " ++ addrRepr a)))
      else
        ({ st with missing_writer := t.writers.isEmpty }, .ok (some t))) := by
  unfold fetch_routing_table fetch_routing_info
  rw [ho]
  dsimp only
  rw [hp]

/-- Claim C4: for every successfully parsed candidate table,
`fetch_routing_table` raises `RoutingProtocolError` when the candidate's
routers set is empty, or (otherwise) when its readers set is empty;
returns the candidate when both are non-empty regardless of the writers
set (an empty writers set is never an error); and in every one of these
cases the pool's `missing_writer` flag in the resulting state equals
(the candidate's writers set is empty). -/
theorem c4_fetch_validation :
    ∀ (o : NetworkOracle) (a : Address) (st : PoolState)
      (rs : List PyVal) (t : RTable),
      o.fetchInfo a = .records rs →
      parse_routing_info st.now rs = .ok t →
      ((fetch_routing_table o a st).1.missing_writer = t.writers.isEmpty ∧
       (t.routers = [] →
         (fetch_routing_table o a st).2 = .error (.routingProtocolError
           ("No routing servers returned from server " ++ addrRepr a))) ∧
       (t.routers ≠ [] → t.readers = [] →
         (fetch_routing_table o a st).2 = .error (.routingProtocolError
           ("No read servers returned from server " ++ addrRepr a))) ∧
       (t.routers ≠ [] → t.readers ≠ [] →
         (fetch_routing_table o a st).2 = .ok (some t))) := by
  intro o a st rs t ho hp
  have hbase := fetch_routing_table_records_eq ho hp
  refine ⟨?_, ?_, ?_, ?_⟩
  · rw [hbase]
    by_cases hr : t.routers.isEmpty <;> by_cases hd : t.readers.isEmpty <;>
      simp [hr, hd]
  · intro hr
    rw [hbase]
    simp [hr]
  · intro hr hd
    rw [hbase]
    simp [List.isEmpty_eq_false.mpr hr, hd]
  · intro hr hd
    rw [hbase]
    simp [List.isEmpty_eq_false.mpr hr, List.isEmpty_eq_false.mpr hd]

def sampleAddr : Address := ⟨"initial", 9000⟩

def sampleState : PoolState :=
  { initial_address := sampleAddr, routing_table := default,
    missing_writer := false, lb := ⟨0, 0⟩, connections := [], now := 0 }

def c4Records : List PyVal :=
  [.dict [("servers", .list [
    .dict [("role", .str "ROUTE"), ("addresses", .list [.str "127.0.0.1:9001"])],
    .dict [("role", .str "READ"), ("addresses", .list [.str "127.0.0.1:9004"])]]),
   ("ttl", .int 300)]]

def c4Oracle : NetworkOracle :=
  { fetchInfo := fun _ => .records c4Records,
    acquireDirect := fun _ => .unavailable,
    inUse := fun _ => 0 }

def c4Table : RTable :=
  match parse_routing_info 0 c4Records with
  | .ok t => t
  | .error _ => default

/-- Claim C4 witness: a concrete candidate with routers and readers but
zero writers is returned successfully and sets the missing-writer
flag. -/
theorem c4_fetch_validation_witness :
    (fetch_routing_table c4Oracle sampleAddr sampleState).1.missing_writer = true ∧
    (fetch_routing_table c4Oracle sampleAddr sampleState).2 = .ok (some c4Table) := by
  have h := c4_fetch_validation c4Oracle sampleAddr sampleState c4Records c4Table rfl rfl
  refine ⟨?_, h.2.2.2 (by decide) (by decide)⟩
  rw [h.1]
  rfl

/-- Claim C9: `fetch_routing_table` assigns `missing_writer` before
validating the candidate — whenever parsing succeeds and the candidate
is then rejected for an empty routers or readers set, the state carried
by the raised `RoutingProtocolError` still has `missing_writer` set to
(the candidate's writers set is empty); the flag update is not rolled
back. -/
theorem c9_flag_before_validation :
    ∀ (o : NetworkOracle) (a : Address) (st : PoolState)
      (rs : List PyVal) (t : RTable),
      o.fetchInfo a = .records rs →
      parse_routing_info st.now rs = .ok t →
      (t.routers = [] ∨ t.readers = []) →
      ∃ m, fetch_routing_table o a st =
        ({ st with missing_writer := t.writers.isEmpty },
         .error (.routingProtocolError m)) := by
  intro o a st rs t ho hp hbad
  have hbase := fetch_routing_table_records_eq ho hp
  by_cases hr : t.routers.isEmpty
  · exact ⟨_, by rw [hbase, if_pos hr]⟩
  · have hd : t.readers.isEmpty := by
      rcases hbad with hb | hb
      · exact absurd (by simp [hb] : t.routers.isEmpty) hr
      · simp [hb]
    exact ⟨_, by rw [hbase, if_neg hr, if_pos hd]⟩

def c9Records : List PyVal :=
  [.dict [("servers", .list [
    .dict [("role", .str "READ"), ("addresses", .list [.str "127.0.0.1:9004"])]]),
   ("ttl", .int 300)]]

def c9Oracle : NetworkOracle :=
  { fetchInfo := fun _ => .records c9Records,
    acquireDirect := fun _ => .unavailable,
    inUse := fun _ => 0 }

def c9Table : RTable :=
  match parse_routing_info 0 c9Records with
  | .ok t => t
  | .error _ => default

/-- Claim C9 witness: a concrete candidate with readers but neither
routers nor writers is rejected, yet the returned state has
`missing_writer = true`. -/
theorem c9_flag_before_validation_witness :
    (fetch_routing_table c9Oracle sampleAddr sampleState).1.missing_writer = true ∧
    (∃ m, fetch_routing_table c9Oracle sampleAddr sampleState =
      ({ sampleState with missing_writer := true },
       .error (.routingProtocolError m))) := by
  obtain ⟨m, hm⟩ := c9_flag_before_validation c9Oracle sampleAddr sampleState
    c9Records c9Table rfl rfl (Or.inl (by decide))
  constructor
  · rw [hm]; rfl
  · exact ⟨m, by rw [hm]; rfl⟩

/-- Claim C7: for every address and every pool state, `remove_writer`
removes the address from the writers set only — the routers set, the
readers set (and the rest of the pool state) are unchanged — and it
succeeds silently (as a total function returning the unchanged state)
when the address is not among the writers. -/
theorem c7_remove_writer_frame :
    ∀ (st : PoolState) (a : Address),
      (remove_writer a st).routing_table.routers = st.routing_table.routers ∧
      (remove_writer a st).routing_table.readers = st.routing_table.readers ∧
      (remove_writer a st).routing_table.writers =
        st.routing_table.writers.filter (· ≠ a) ∧
      a ∉ (remove_writer a st).routing_table.writers ∧
      (remove_writer a st).connections = st.connections ∧
      (a ∉ st.routing_table.writers → remove_writer a st = st) := by
  intro st a
  refine ⟨rfl, rfl, rfl, ?_, rfl, ?_⟩
  · simp [remove_writer, List.mem_filter]
  · intro h
    have hfe : st.routing_table.writers.filter (· ≠ a) = st.routing_table.writers := by
      rw [List.filter_eq_self]
      intro b hb
      have hba : b ≠ a := fun hba => h (hba ▸ hb)
      simp [hba]
    show { st with routing_table := { st.routing_table with
      writers := st.routing_table.writers.filter (· ≠ a) } } = st
    rw [hfe]

def c7State : PoolState :=
  { initial_address := ⟨"initial", 9000⟩,
    routing_table :=
      { routers := [⟨"r", 1⟩], readers := [⟨"d", 2⟩], writers := [⟨"w", 3⟩],
        ttl := .int 300, last_updated := 0 },
    missing_writer := false, lb := ⟨0, 0⟩, connections := [⟨"w", 3⟩], now := 0 }

/-- Claim C7 witness: removing an absent writer from a concrete state
leaves the state unchanged, and removing a present one empties only the
writers set. -/
theorem c7_remove_writer_frame_witness :
    remove_writer ⟨"absent", 7⟩ c7State = c7State ∧
    (remove_writer ⟨"w", 3⟩ c7State).routing_table.writers = [] ∧
    (remove_writer ⟨"w", 3⟩ c7State).routing_table.routers = [⟨"r", 1⟩] := by
  refine ⟨(c7_remove_writer_frame c7State ⟨"absent", 7⟩).2.2.2.2.2 (by decide),
    ?_, (c7_remove_writer_frame c7State ⟨"w", 3⟩).1.trans rfl⟩
  rw [(c7_remove_writer_frame c7State ⟨"w", 3⟩).2.2.1]
  rfl

/-- Claim C8: `handle` matches the error's class exactly, not by
subclass — for every error class that is not literally one of the five
listed classes, including every proper subclass of any class, `handle`
returns the state unchanged: the routing table's three role sets are
untouched and no deactivation happens anywhere. -/
theorem c8_handle_exact_match :
    ∀ (c : PyExcClass) (a : Address) (st : PoolState),
      (c ≠ .connectionExpired → c ≠ .serviceUnavailable →
       c ≠ .databaseUnavailableError → c ≠ .notALeaderError →
       c ≠ .forbiddenOnReadOnlyDatabaseError →
       handle c a st = st) ∧
      (∀ (p : PyExcClass) (n : String), handle (.subclassOf p n) a st = st) := by
  intro c a st
  constructor
  · intro h1 h2 h3 h4 h5
    simp [handle, h1, h2, h3, h4, h5]
  · intro p n
    simp [handle]

/-- Claim C8 witness: an error whose class is a proper subclass of
`ServiceUnavailable` leaves a concrete state (with the connection's
address present in every role set) completely unchanged. -/
theorem c8_handle_exact_match_witness :
    handle (.subclassOf .serviceUnavailable "ConnectionUnavailable") ⟨"w", 3⟩ c7State =
      c7State :=
  (c8_handle_exact_match (.subclassOf .serviceUnavailable "ConnectionUnavailable")
    ⟨"w", 3⟩ c7State).2 .serviceUnavailable "ConnectionUnavailable"

/-- Claim C10: `RoutingTable.update` replaces the contents of the
receiver's three `OrderedSet` objects in place via `replace` — the
object identities are preserved and no fresh set object is allocated
(witness the type of `updateH`, which threads no allocator) — so a
reference to a role set captured before a refresh (as `acquire` captures
`server_list` before ensuring freshness) dereferences to the
post-refresh contents; and tables built by the constructor carry three
distinct set identities. -/
theorem c10_update_in_place :
    (∀ (alloc : Nat) (routers readers writers : List Address) (ttl : PyVal) (now : Int),
      (mkRTableH alloc routers readers writers ttl now).1.routers.ref ≠
        (mkRTableH alloc routers readers writers ttl now).1.readers.ref ∧
      (mkRTableH alloc routers readers writers ttl now).1.readers.ref ≠
        (mkRTableH alloc routers readers writers ttl now).1.writers.ref ∧
      (mkRTableH alloc routers readers writers ttl now).1.routers.ref ≠
        (mkRTableH alloc routers readers writers ttl now).1.writers.ref) ∧
    (∀ (t other : RTableH) (now : Int),
      (updateH t other now).routers.ref = t.routers.ref ∧
      (updateH t other now).readers.ref = t.readers.ref ∧
      (updateH t other now).writers.ref = t.writers.ref ∧
      (updateH t other now).routers.elems = dedupF other.routers.elems ∧
      (updateH t other now).readers.elems = dedupF other.readers.elems ∧
      (updateH t other now).writers.elems = dedupF other.writers.elems ∧
      (t.routers.ref ≠ t.readers.ref →
        derefSetH (updateH t other now) t.readers.ref =
          some (dedupF other.readers.elems))) := by
  constructor
  · intro alloc routers readers writers ttl now
    refine ⟨?_, ?_, ?_⟩ <;> simp [mkRTableH]
  · intro t other now
    refine ⟨rfl, rfl, rfl, rfl, rfl, rfl, ?_⟩
    intro hne
    simp only [derefSetH, updateH, OrderedSetH.replaceContents]
    rw [if_neg hne]
    simp

/-- Claim C10 witness: updating a concrete constructed table from a
snapshot replaces contents under the captured readers identity. -/
theorem c10_update_in_place_witness :
    derefSetH
      (updateH (mkRTableH 0 [⟨"r", 1⟩] [⟨"d", 2⟩] [] (.int 0) 0).1
        (mkRTableH 3 [⟨"r2", 1⟩] [⟨"d2", 2⟩] [⟨"w2", 3⟩] (.int 300) 0).1 5)
      (mkRTableH 0 [⟨"r", 1⟩] [⟨"d", 2⟩] [] (.int 0) 0).1.readers.ref =
      some [⟨"d2", 2⟩] := by
  have h := (c10_update_in_place.2
    (mkRTableH 0 [⟨"r", 1⟩] [⟨"d", 2⟩] [] (.int 0) 0).1
    (mkRTableH 3 [⟨"r2", 1⟩] [⟨"d2", 2⟩] [⟨"w2", 3⟩] (.int 300) 0).1 5).2.2.2.2.2.2
    (by decide)
  rw [h]
  rfl

theorem foldl_lcStep_keep (u : Address → Nat) :
    ∀ (l : List Address) (b : Option Address) (c : Nat),
      (∀ a ∈ l, ¬ u a < c) → List.foldl (lcStep u) (b, c) l = (b, c) := by
  intro l
  induction l with
  | nil => intro b c _; rfl
  | cons x xs ih =>
    intro b c hall
    simp only [List.foldl_cons]
    rw [lcStep, if_neg (hall x (List.mem_cons_self _ _))]
    exact ih b c (fun a ha => hall a (List.mem_cons_of_mem _ ha))

theorem foldl_lcStep_winner (u : Address → Nat) :
    ∀ (l : List Address) (b : Option Address) (c : Nat),
      (∃ a ∈ l, u a < c) →
      ∃ p x s, l = p ++ x :: s ∧
        (List.foldl (lcStep u) (b, c) l).1 = some x ∧
        u x < c ∧ (∀ y ∈ p, u x < u y) ∧ (∀ y ∈ s, u x ≤ u y) := by
  intro l
  induction l with
  | nil => rintro b c ⟨a, ha, _⟩; cases ha
  | cons hd tl ih =>
    intro b c hex
    by_cases hhd : u hd < c
    · have hstep : List.foldl (lcStep u) (b, c) (hd :: tl) =
          List.foldl (lcStep u) (some hd, u hd) tl := by
        simp only [List.foldl_cons]
        rw [lcStep, if_pos hhd]
      by_cases h2 : ∃ a ∈ tl, u a < u hd
      · obtain ⟨p, x, s, htl, hres, hx, hp, hs⟩ := ih (some hd) (u hd) h2
        refine ⟨hd :: p, x, s, by rw [htl]; rfl, by rw [hstep]; exact hres,
          Nat.lt_trans hx hhd, ?_, hs⟩
        intro y hy
        rcases List.mem_cons.mp hy with hy1 | hy1
        · rw [hy1]; exact hx
        · exact hp y hy1
      · push_neg at h2
        refine ⟨[], hd, tl, rfl, ?_, hhd, ?_, ?_⟩
        · rw [hstep, foldl_lcStep_keep u tl (some hd) (u hd)
            (fun a ha => Nat.not_lt.mpr (h2 a ha))]
        · intro y hy; cases hy
        · exact fun y hy => h2 y hy
    · have hstep : List.foldl (lcStep u) (b, c) (hd :: tl) =
          List.foldl (lcStep u) (b, c) tl := by
        simp only [List.foldl_cons]
        rw [lcStep, if_neg hhd]
      have hex2 : ∃ a ∈ tl, u a < c := by
        obtain ⟨a, ha, hac⟩ := hex
        rcases List.mem_cons.mp ha with ha1 | ha1
        · exact absurd (ha1 ▸ hac) hhd
        · exact ⟨a, ha1, hac⟩
      obtain ⟨p, x, s, htl, hres, hx, hp, hs⟩ := ih b c hex2
      refine ⟨hd :: p, x, s, by rw [htl]; rfl, by rw [hstep]; exact hres, hx, ?_, hs⟩
      intro y hy
      rcases List.mem_cons.mp hy with hy1 | hy1
      · rw [hy1]; exact Nat.lt_of_lt_of_le hx (Nat.le_of_not_lt hhd)
      · exact hp y hy1

/-- Claim C3: `_select` returns none exactly on the empty address list
(under the physical bound that every in-use count is below
`sys.maxsize`); otherwise it returns the first address of the ring walk
(starting at `offset mod n`) whose in-use count, as read during the
walk, is minimal — strictly smaller than every earlier walk entry's
count and no larger than any candidate's count — and `select_reader`
and `select_writer` increment their respective offsets by one after
every call regardless of outcome. -/
theorem c3_select_least_connected :
    ∀ (u : Address → Nat) (off : Nat) (addrs : List Address) (lb : LBState),
      (addrs = [] → lcSelect u off addrs = none) ∧
      ((∀ a ∈ addrs, u a < maxsize) → addrs ≠ [] →
        ∃ x p s, lcSelect u off addrs = some x ∧
          walkList (off % addrs.length) addrs = p ++ x :: s ∧
          (∀ y ∈ p, u x < u y) ∧ (∀ y ∈ s, u x ≤ u y) ∧
          x ∈ addrs ∧ (∀ b ∈ addrs, u x ≤ u b)) ∧
      ((select_reader u addrs lb).2 =
        { lb with readers_offset := lb.readers_offset + 1 }) ∧
      ((select_writer u addrs lb).2 =
        { lb with writers_offset := lb.writers_offset + 1 }) := by
  intro u off addrs lb
  refine ⟨?_, ?_, rfl, rfl⟩
  · intro h
    rw [lcSelect, if_pos (by simp [h])]
  · intro hcount hne
    have hlen : 0 < addrs.length := List.length_pos.mpr hne
    have hwlen : 0 < (walkList (off % addrs.length) addrs).length := by
      rw [walkList_length]; exact hlen
    obtain ⟨w, ws, hw⟩ := List.exists_cons_of_ne_nil (List.ne_nil_of_length_pos hwlen)
    have hwmem : w ∈ walkList (off % addrs.length) addrs := by
      rw [hw]; exact List.mem_cons_self _ _
    have hex : ∃ a ∈ walkList (off % addrs.length) addrs, u a < maxsize :=
      ⟨w, hwmem, hcount w (mem_walkList.mp hwmem)⟩
    obtain ⟨p, x, s, hsplit, hres, hx, hp, hs⟩ :=
      foldl_lcStep_winner u (walkList (off % addrs.length) addrs) none maxsize hex
    have hxwalk : x ∈ walkList (off % addrs.length) addrs := by
      rw [hsplit]; exact List.mem_append_right _ (List.mem_cons_self _ _)
    have hxmem : x ∈ addrs := mem_walkList.mp hxwalk
    have hallwalk : ∀ y ∈ walkList (off % addrs.length) addrs, u x ≤ u y := by
      intro y hy
      rw [hsplit] at hy
      rcases List.mem_append.mp hy with hy1 | hy1
      · exact Nat.le_of_lt (hp y hy1)
      · rcases List.mem_cons.mp hy1 with hy2 | hy2
        · rw [hy2]
        · exact hs y hy2
    refine ⟨x, p, s, ?_, hsplit, hp, hs, hxmem, ?_⟩
    · rw [lcSelect, if_neg (by simp [hne])]
      exact hres
    · intro b hb
      exact hallwalk b (mem_walkList.mpr hb)

def c3Addrs : List Address := [⟨"a", 1⟩, ⟨"b", 2⟩]

def c3Counts : Address → Nat := fun a => if a.host = "a" then 5 else 1

/-- Claim C3 witness: on a concrete two-address list with skewed counts
the less-loaded address wins even though the walk starts at the other,
and both selectors advance their offsets. -/
theorem c3_select_least_connected_witness :
    lcSelect c3Counts 0 c3Addrs = some ⟨"b", 2⟩ ∧
    (select_reader c3Counts c3Addrs ⟨0, 0⟩).2 = ⟨1, 0⟩ ∧
    (select_writer c3Counts c3Addrs ⟨0, 0⟩).2 = ⟨0, 1⟩ := by
  have h := c3_select_least_connected c3Counts 0 c3Addrs ⟨0, 0⟩
  obtain ⟨x, p, s, hsel, hwalk, hp, hs, hmem, hall⟩ :=
    h.2.1 (by intro a ha; fin_cases ha <;> decide) (by decide)
  have hx : x = ⟨"b", 2⟩ := by
    fin_cases hmem
    · exfalso
      have := hall ⟨"b", 2⟩ (by decide)
      revert this
      decide
    · rfl
  exact ⟨hx ▸ hsel, h.2.2.1, h.2.2.2⟩

/-- The pure outcome of `fetch_routing_table` at a router address: it
depends only on the oracle's answer for that address (and the frozen
timer), not on the pool state. -/
def fetchOutcome (o : NetworkOracle) (now : Int) (a : Address) :
    Except PyError (Option RTable) :=
  match o.fetchInfo a with
  | .unavailable => .ok none
  | .protoFail m => .error (.serviceUnavailable m)
  | .records rs =>
    match parse_routing_info now rs with
    | .error e => .error e
    | .ok t =>
      if t.routers.isEmpty then
        .error (.routingProtocolError
          ("No routing servers returned from server " ++ addrRepr a))
      else if t.readers.isEmpty then
        .error (.routingProtocolError
          ("No read servers returned from server " ++ addrRepr a))
      else .ok (some t)

theorem fetch_unavailable {o : NetworkOracle} {a : Address} (st : PoolState)
    (h : o.fetchInfo a = .unavailable) :
    fetch_routing_table o a st = (deactivate a st, .ok none) := by
  unfold fetch_routing_table fetch_routing_info
  rw [h]

theorem fetchOutcome_ok_none {o : NetworkOracle} {now : Int} {a : Address}
    (h : fetchOutcome o now a = .ok none) : o.fetchInfo a = .unavailable := by
  unfold fetchOutcome at h
  cases hfi : o.fetchInfo a with
  | unavailable => rfl
  | protoFail m => rw [hfi] at h; cases h
  | records rs =>
    rw [hfi] at h
    dsimp only at h
    cases hp : parse_routing_info now rs with
    | error e => rw [hp] at h; cases h
    | ok t =>
      rw [hp] at h
      dsimp only at h
      by_cases hr : t.routers.isEmpty
      · rw [if_pos hr] at h; cases h
      · rw [if_neg hr] at h
        by_cases hd : t.readers.isEmpty
        · rw [if_pos hd] at h; cases h
        · rw [if_neg hd] at h; cases h

theorem fetchOutcome_ok_some {o : NetworkOracle} {now : Int} {a : Address}
    {t : RTable} (h : fetchOutcome o now a = .ok (some t)) :
    ∃ rs, o.fetchInfo a = .records rs ∧ parse_routing_info now rs = .ok t ∧
      t.routers.isEmpty = false ∧ t.readers.isEmpty = false := by
  unfold fetchOutcome at h
  cases hfi : o.fetchInfo a with
  | unavailable => rw [hfi] at h; cases h
  | protoFail m => rw [hfi] at h; cases h
  | records rs =>
    rw [hfi] at h
    dsimp only at h
    cases hp : parse_routing_info now rs with
    | error e => rw [hp] at h; cases h
    | ok t2 =>
      rw [hp] at h
      dsimp only at h
      by_cases hr : t2.routers.isEmpty
      · rw [if_pos hr] at h; cases h
      · rw [if_neg hr] at h
        by_cases hd : t2.readers.isEmpty
        · rw [if_pos hd] at h; cases h
        · rw [if_neg hd] at h
          injection h with h2
          injection h2 with h3
          subst h3
          exact ⟨rs, rfl, hp, Bool.eq_false_iff.mpr hr, Bool.eq_false_iff.mpr hd⟩

theorem fetch_ok_some {o : NetworkOracle} {a : Address} {now : Int} {t : RTable}
    (st : PoolState) (hnow : st.now = now)
    (h : fetchOutcome o now a = .ok (some t)) :
    fetch_routing_table o a st =
      ({ st with missing_writer := t.writers.isEmpty }, .ok (some t)) := by
  obtain ⟨rs, hfi, hp, hr, hd⟩ := fetchOutcome_ok_some h
  rw [fetch_routing_table_records_eq hfi (by rw [hnow]; exact hp), hr, hd]
  simp

theorem urtf_all_none (o : NetworkOracle) :
    ∀ (routers : List Address) (st : PoolState),
      (∀ a ∈ routers, fetchOutcome o st.now a = .ok none) →
      ∃ st', update_routing_table_from o routers st = (st', .ok false) ∧
        st'.now = st.now ∧ st'.initial_address = st.initial_address ∧
        st'.missing_writer = st.missing_writer := by
  intro routers
  induction routers with
  | nil => intro st _; exact ⟨st, rfl, rfl, rfl, rfl⟩
  | cons r rest ih =>
    intro st hall
    have hr := fetchOutcome_ok_none (hall r (List.mem_cons_self _ _))
    have hstep : update_routing_table_from o (r :: rest) st =
        update_routing_table_from o rest (deactivate r st) := by
      simp only [update_routing_table_from]
      rw [fetch_unavailable st hr]
    obtain ⟨st', h1, h2, h3, h4⟩ := ih (deactivate r st)
      (fun a ha => hall a (List.mem_cons_of_mem _ ha))
    exact ⟨st', by rw [hstep]; exact h1, h2, h3, h4⟩

theorem urtf_first_success (o : NetworkOracle) :
    ∀ (p : List Address) (st : PoolState) (a : Address) (s : List Address)
      (t : RTable),
      (∀ b ∈ p, fetchOutcome o st.now b = .ok none) →
      fetchOutcome o st.now a = .ok (some t) →
      ∃ st', update_routing_table_from o (p ++ a :: s) st = (st', .ok true) ∧
        st'.routing_table = updateTable t st.now := by
  intro p
  induction p with
  | nil =>
    intro st a s t _ ha
    refine ⟨{ { st with missing_writer := t.writers.isEmpty } with routing_table := updateTable t st.now }, ?_, rfl⟩
    simp only [List.nil_append, update_routing_table_from]
    rw [fetch_ok_some st rfl ha]
  | cons b p' ih =>
    intro st a s t hall ha
    have hb := fetchOutcome_ok_none (hall b (List.mem_cons_self _ _))
    have hstep : update_routing_table_from o ((b :: p') ++ a :: s) st =
        update_routing_table_from o (p' ++ a :: s) (deactivate b st) := by
      simp only [List.cons_append, update_routing_table_from]
      rw [fetch_unavailable st hb]
      rfl
    obtain ⟨st', h1, h2⟩ := ih (deactivate b st) a s t
      (fun c hc => hall c (List.mem_cons_of_mem _ hc)) ha
    exact ⟨st', by rw [hstep]; exact h1, h2⟩

/-- The candidate order in which `update_routing_table` tries routers:
the initial address first when `missing_writer` is set, then the
snapshot of the routers set in insertion order, then the initial address
when it was neither already tried nor in the snapshot. -/
def routerCandidates (st : PoolState) : List Address :=
  (if st.missing_writer then [st.initial_address] else []) ++
  st.routing_table.routers ++
  (if st.missing_writer = false ∧ st.initial_address ∉ st.routing_table.routers
   then [st.initial_address] else [])

theorem urtf_append (o : NetworkOracle) :
    ∀ (xs ys : List Address) (st : PoolState),
      update_routing_table_from o (xs ++ ys) st =
        (match update_routing_table_from o xs st with
         | (st1, .ok false) => update_routing_table_from o ys st1
         | (st1, .ok true) => (st1, .ok true)
         | (st1, .error e) => (st1, .error e)) := by
  intro xs
  induction xs with
  | nil => intro ys st; rfl
  | cons x xs' ih =>
    intro ys st
    simp only [List.cons_append, update_routing_table_from]
    cases hf : fetch_routing_table o x st with
    | mk st1 res =>
      cases res with
      | error e => rfl
      | ok v =>
        cases v with
        | some t => rfl
        | none => exact ih ys st1

theorem update_routing_table_eq_linear (o : NetworkOracle) (st : PoolState) :
    update_routing_table o st =
      (match update_routing_table_from o (routerCandidates st) st with
       | (st1, .error e) => (st1, .error e)
       | (st1, .ok true) => (st1, .ok ())
       | (st1, .ok false) =>
         (st1, .error (.serviceUnavailable "Unable to retrieve routing information"))) := by
  unfold update_routing_table
  by_cases hmw : st.missing_writer = true
  · have hc : routerCandidates st =
        [st.initial_address] ++ (st.routing_table.routers ++ []) := by
      simp [routerCandidates, hmw]
    rw [hc, urtf_append, List.append_nil, if_pos hmw]
    cases h1 : update_routing_table_from o [st.initial_address] st with
    | mk st1 r1 =>
      cases r1 with
      | error e => rfl
      | ok b1 =>
        cases b1 with
        | true => rfl
        | false => dsimp only
  · have hmwf : st.missing_writer = false := by
      revert hmw; cases st.missing_writer <;> simp
    rw [if_neg hmw]
    by_cases hmem : st.initial_address ∈ st.routing_table.routers
    · have hc : routerCandidates st = st.routing_table.routers ++ [] := by
        simp [routerCandidates, hmwf, hmem]
      rw [hc, List.append_nil]
      cases h1 : update_routing_table_from o st.routing_table.routers st with
      | mk st1 r1 =>
        cases r1 with
        | error e => rfl
        | ok b1 =>
          cases b1 with
          | true => rfl
          | false =>
            dsimp only
            rw [if_pos hmem]
    · have hc : routerCandidates st =
          st.routing_table.routers ++ [st.initial_address] := by
        simp [routerCandidates, hmwf, hmem]
      rw [hc, urtf_append]
      cases h1 : update_routing_table_from o st.routing_table.routers st with
      | mk st1 r1 =>
        cases r1 with
        | error e => rfl
        | ok b1 =>
          cases b1 with
          | true => rfl
          | false =>
            dsimp only
            rw [if_neg hmem]

/-- Claim C2: `update_routing_table` tries router candidates in exactly
the order given by `routerCandidates` — the initial address first when
`missing_writer` is set, then the routers snapshot in insertion order,
then the initial address when it was neither already tried nor in the
snapshot — returning at the first candidate whose fetch succeeds (the
routing table is then updated from that candidate's table), and raising
`ServiceUnavailable("Unable to retrieve routing information")` when
every candidate fails. -/
theorem c2_update_routing_table_order :
    ∀ (o : NetworkOracle) (st : PoolState),
      ((∀ a ∈ routerCandidates st, fetchOutcome o st.now a = .ok none) →
        (update_routing_table o st).2 =
          .error (.serviceUnavailable "Unable to retrieve routing information")) ∧
      (∀ (p : List Address) (a : Address) (s : List Address) (t : RTable),
        routerCandidates st = p ++ a :: s →
        (∀ b ∈ p, fetchOutcome o st.now b = .ok none) →
        fetchOutcome o st.now a = .ok (some t) →
        ∃ st', update_routing_table o st = (st', .ok ()) ∧
          st'.routing_table = updateTable t st.now) := by
  intro o st
  constructor
  · intro hall
    obtain ⟨st', h1, _⟩ := urtf_all_none o (routerCandidates st) st hall
    rw [update_routing_table_eq_linear, h1]
  · intro p a s t hsplit hall ha
    obtain ⟨st', h1, h2⟩ := urtf_first_success o p st a s t hall ha
    refine ⟨st', ?_, h2⟩
    rw [update_routing_table_eq_linear, hsplit, h1]

def c2Oracle : NetworkOracle :=
  { fetchInfo := fun _ => .unavailable,
    acquireDirect := fun _ => .unavailable,
    inUse := fun _ => 0 }

/-- Claim C2 witness: with every router candidate unreachable the
refresh raises the documented `ServiceUnavailable`, and with a concrete
oracle answering at the first snapshot router the refresh succeeds and
installs that candidate's table. -/
theorem c2_update_routing_table_order_witness :
    (update_routing_table c2Oracle c7State).2 =
      .error (.serviceUnavailable "Unable to retrieve routing information") ∧
    (∃ st', update_routing_table c4Oracle c7State = (st', .ok ()) ∧
      st'.routing_table = updateTable c4Table c7State.now) := by
  constructor
  · exact (c2_update_routing_table_order c2Oracle c7State).1 (fun a _ => rfl)
  · exact (c2_update_routing_table_order c4Oracle c7State).2
      [] ⟨"r", 1⟩ [⟨"initial", 9000⟩] c4Table rfl
      (fun b hb => absurd hb (List.not_mem_nil b)) rfl

theorem selectForMode_none_of_empty {o : NetworkOracle} {mode : AccessMode}
    {st : PoolState} (h : roleSet st mode = []) :
    (selectForMode o mode st).1 = none := by
  cases mode
  · show lcSelect o.inUse st.lb.readers_offset st.routing_table.readers = none
    rw [show st.routing_table.readers = [] from h]
    rfl
  · show lcSelect o.inUse st.lb.writers_offset st.routing_table.writers = none
    rw [show st.routing_table.writers = [] from h]
    rfl

theorem acquireLoop_empty {o : NetworkOracle} {mode : AccessMode} {st : PoolState}
    (h : roleSet st mode = []) :
    acquireLoop o mode st = (setLB st (selectForMode o mode st).2,
      .error (.connectionExpired
        (acquireFailPre ++ mode.toStr ++ acquireFailPost))) := by
  rw [acquireLoop]
  split
  · next lb1 heq =>
      rw [heq]
  · next a lb1 heq =>
      exfalso
      have := selectForMode_none_of_empty (o := o) h
      rw [heq] at this
      cases this

theorem acquireLoop_step {o : NetworkOracle} {mode : AccessMode} {st : PoolState}
    {a : Address} {lb1 : LBState}
    (hsel : selectForMode o mode st = (some a, lb1))
    (hun : o.acquireDirect a = .unavailable) :
    acquireLoop o mode st = acquireLoop o mode (deactivate a (setLB st lb1)) := by
  rw [acquireLoop]
  split
  · next lb2 heq =>
      rw [hsel] at heq
      cases heq
  · next a2 lb2 heq =>
      rw [hsel] at heq
      injection heq with h1 h2
      injection h1 with h1
      subst h1
      subst h2
      rw [hun]

/-- Claim C5: in `acquire(mode)`'s main loop, every address whose direct
acquisition fails with `ServiceUnavailable` is deactivated (removed from
all three role sets and from the direct pool) and the loop continues on
the resulting state; and when the selector yields no address — i.e. the
mode's role set is empty, so no server in that role set could be
contacted — `acquire` fails with `ConnectionExpired` whose message
contains the printed access mode. -/
theorem c5_acquire_error_handling :
    ∀ (o : NetworkOracle) (mode : AccessMode) (st : PoolState),
      (roleSet st mode = [] →
        acquireLoop o mode st = (setLB st (selectForMode o mode st).2,
          .error (.connectionExpired
            (acquireFailPre ++ mode.toStr ++ acquireFailPost)))) ∧
      (∀ (a : Address) (lb1 : LBState),
        selectForMode o mode st = (some a, lb1) →
        o.acquireDirect a = .unavailable →
        (acquireLoop o mode st = acquireLoop o mode (deactivate a (setLB st lb1)) ∧
         a ∉ (deactivate a (setLB st lb1)).routing_table.routers ∧
         a ∉ (deactivate a (setLB st lb1)).routing_table.readers ∧
         a ∉ (deactivate a (setLB st lb1)).routing_table.writers ∧
         a ∉ (deactivate a (setLB st lb1)).connections)) ∧
      (∀ (st1 : PoolState) (b : Bool),
        ensure_routing_table_is_fresh o mode st = (st1, .ok b) →
        roleSet st1 mode = [] →
        acquire o (some mode) st = (setLB st1 (selectForMode o mode st1).2,
          .error (.connectionExpired
            (acquireFailPre ++ mode.toStr ++ acquireFailPost)))) := by
  intro o mode st
  refine ⟨fun h => acquireLoop_empty h, ?_, ?_⟩
  · intro a lb1 hsel hun
    refine ⟨acquireLoop_step hsel hun, ?_, ?_, ?_, ?_⟩ <;>
      simp [deactivate, setLB, List.mem_filter]
  · intro st1 b hens hrole
    unfold acquire
    dsimp only [Option.getD]
    rw [hens]
    exact acquireLoop_empty hrole

def c5State1 : PoolState :=
  (ensure_routing_table_is_fresh c4Oracle .write sampleState).1

/-- Claim C5 witness: acquiring WRITE from a stale pool whose refresh
succeeds but returns zero writers runs the loop with an empty writers
set and fails with the `ConnectionExpired` message naming WRITE. -/
theorem c5_acquire_error_handling_witness :
    acquire c4Oracle (some .write) sampleState =
      (setLB c5State1 (selectForMode c4Oracle .write c5State1).2,
       .error (.connectionExpired
         (acquireFailPre ++ AccessMode.toStr .write ++ acquireFailPost))) :=
  (c5_acquire_error_handling c4Oracle .write sampleState).2.2 c5State1 true rfl rfl
